import Mathlib

/-!
Verification of the subscription-reminder pipeline of the subscy backend.

The development is a shallow embedding of:
  * `app/services/reminder_service.py`  (`ReminderService.check_and_send_reminders`,
    `ReminderService.get_upcoming_reminders`),
  * `app/services/email_service.py`     (`EmailService.send_reminder_email` and the
    subject/plain/HTML day-count rendering),
  * `app/scheduler/reminder_scheduler.py` (`ReminderScheduler.start` / `stop`).

External collaborators (the Supabase record store, the Supabase auth identity
lookup, and the SMTP transport) are modelled as explicit inputs: the candidate
query result is an `Except String (List Subscription)`, identity resolution is a
function `String → Except String Resolved`, and the transport outcome of each
attempted SMTP transmission is a `TransportOutcome` oracle.  Python exceptions
are modelled with `Except`; a `try/except` block becomes a `match` on the
`Except` value.  Calendar dates are modelled by their day ordinal (`Int`), so
that `renewal_date - today` in whole days is integer subtraction.
-/

namespace Subscy

/-- The raw `nextRenewalDate` field of a subscription row, as the reminder code
sees it.  `absent` models a missing/`None`/empty (falsy) value; `dateOnly`
models a string without `"T"` fed to `datetime.strptime(s, "%Y-%m-%d")`;
`timestamp` models a string containing `"T"` fed to `datetime.fromisoformat`.
A `none` payload means the parse raises `ValueError`; `some d` means it yields
the calendar date with day ordinal `d`. -/
inductive RawDate where
  | absent
  | dateOnly (parsed : Option Int)
  | timestamp (parsed : Option Int)
deriving DecidableEq

/-- Result of the date-handling prelude of the per-subscription loop
(`reminder_service.py` lines 92-100): a falsy field means `continue` (skip),
otherwise the string is parsed and a malformed one raises `ValueError`. -/
inductive ParseResult where
  | missing
  | ok (d : Int)
  | err
deriving DecidableEq

/-- Models `reminder_service.py` lines 92-100 (and the identical block at
lines 160-167): absent field is skipped, otherwise parse the date-only or
timestamp form, raising on a malformed value. -/
def parseRenewal : RawDate → ParseResult
  | .absent => .missing
  | .dateOnly (some d) => .ok d
  | .dateOnly none => .err
  | .timestamp (some d) => .ok d
  | .timestamp none => .err

/-- A subscription row, restricted to the fields the reminder pipeline reads.
`userId` is `none` when the field is missing or falsy; `reminderDaysBefore`
is `none` when the key is absent so that `sub.get("reminderDaysBefore", 7)`
becomes `reminderDaysBefore.getD 7`. -/
structure Subscription where
  id : String
  userId : Option String
  name : String
  nextRenewalDate : RawDate
  reminderDaysBefore : Option Int
  isActive : Bool
  reminderEnabled : Bool
deriving DecidableEq

/-- The per-run statistics dict of `check_and_send_reminders`
(`reminder_service.py` lines 15-20). -/
structure Stats where
  checked : Nat
  sent : Nat
  failed : Nat
  errors : List String
deriving DecidableEq

/-- What the identity resolver returns for one owner on success:
the email plus the display name derived from user metadata
(`reminder_service.py` lines 56-62). -/
structure Resolved where
  email : String
  name : String
deriving DecidableEq

/-- Accumulated state of the identity-resolution loop
(`reminder_service.py` lines 48-80): the `user_emails` and `user_names`
dicts and the error strings appended to `stats["errors"]`. -/
structure Resolution where
  emails : List (String × String)
  names : List (String × String)
  errors : List String
deriving DecidableEq

/-- Insertion step of building the distinct owner-identifier set. -/
def addUnique (acc : List String) (uid : String) : List String :=
  if acc.contains uid then acc else acc ++ [uid]

/-- Models `set(sub.get("userId") for sub in subscriptions if sub.get("userId"))`
(`reminder_service.py` line 45): the distinct truthy owner identifiers,
kept in first-occurrence order. -/
def uniqueUserIds (subs : List Subscription) : List String :=
  (subs.filterMap (fun s => s.userId)).foldl addUnique []

/-- One iteration of the identity-resolution loop (`reminder_service.py`
lines 51-80): a success records the owner's email and name, a failure appends
`"Error fetching user {id}: {msg}"` to the run's errors and records nothing
for that owner. -/
def resolveStep (resolver : String → Except String Resolved) (acc : Resolution)
    (uid : String) : Resolution :=
  match resolver uid with
  | .ok r =>
      { acc with
        emails := acc.emails ++ [(uid, r.email)]
        names := acc.names ++ [(uid, r.name)] }
  | .error e =>
      { acc with
        errors := acc.errors ++ ["Error fetching user " ++ uid ++ ": " ++ e] }

/-- The identity-resolution loop (`reminder_service.py` lines 51-80):
each distinct owner id is resolved exactly once. -/
def resolveAll (resolver : String → Except String Resolved) (ids : List String) :
    Resolution :=
  ids.foldl (resolveStep resolver) ⟨[], [], []⟩

/-- Outcome of the SMTP transmission attempt (`aiosmtplib.send`): the call
either completes or raises. -/
inductive TransportOutcome where
  | ok
  | failed (msg : String)
deriving DecidableEq

/-- Result of one `send_reminder_email` call: `result` is the value returned
to the caller (`.error` would mean an exception escaping to the caller, which
the theorems show never happens) and `transportCalls` counts how many actual
SMTP transmissions were attempted during the call. -/
structure SendOutcome where
  result : Except String Bool
  transportCalls : Nat

/-- SMTP configuration read from the environment by `EmailService.__init__`
(`email_service.py` lines 10-16).  `none` models an unset (falsy) variable. -/
structure SmtpConfig where
  smtpUser : Option String
  smtpPassword : Option String
  smtpSecure : Bool
deriving DecidableEq

/-- The `aiosmtplib.send` call (`email_service.py` lines 199-217): raises on a
transport failure. -/
def transportSend (tr : TransportOutcome) : Except String Unit :=
  match tr with
  | .ok => .ok ()
  | .failed m => .error m

/-- The inner try/except around the transport call (`email_service.py`
lines 198-223): a completed transmission returns `True`, a transport
exception is caught and converted to `False`. -/
def sendBody (tr : TransportOutcome) : Except String Bool :=
  match transportSend tr with
  | .ok _ => .ok true
  | .error _ => .ok false

/-- Models `EmailService.send_reminder_email` (`email_service.py` lines 123-229):
missing SMTP credentials short-circuit to `False` before any transport call
(lines 131-133); otherwise the message is built and transmitted once, the
inner handler turning a transport exception into `False` and the outer
handler (lines 225-229) turning any other exception into `False`. -/
def send_reminder_email (cfg : SmtpConfig) (toEmail userName : String)
    (sub : Subscription) (daysUntil : Int) (tr : TransportOutcome) : SendOutcome :=
  if cfg.smtpUser.isNone || cfg.smtpPassword.isNone then
    ⟨.ok false, 0⟩
  else
    match sendBody tr with
    | .ok b => ⟨.ok b, 1⟩
    | .error _ => ⟨.ok false, 1⟩

/-- Models the plural suffix expression of the f-strings used in the email
subject (`email_service.py` line 170) and the plain-text body (line 187). -/
def daysSuffix (daysUntil : Int) : String :=
  if daysUntil ≠ 1 then "s" else ""

/-- The email subject f-string (`email_service.py` line 170). -/
def subjectLine (name : String) (daysUntil : Int) : String :=
  "🔔 Reminder: " ++ name ++ " renews in " ++ toString daysUntil ++ " day" ++
    daysSuffix daysUntil

/-- The `Days Until Renewal` line of the plain-text body
(`email_service.py` line 187). -/
def plainDaysLine (daysUntil : Int) : String :=
  "Days Until Renewal: " ++ toString daysUntil ++ " day" ++ daysSuffix daysUntil

/-- The day-count cell of the HTML template (`email_service.py` lines 77-87):
the Jinja2 conditional renders `"{days} days"` when `days_until > 0` and the
distinct `"Renews today!"` status row otherwise. -/
def htmlDaysCell (daysUntil : Int) : String :=
  if daysUntil > 0 then toString daysUntil ++ " days" else "Renews today!"

/-- Substring test used to state facts about rendered text. -/
def strContains (hay needle : String) : Bool :=
  decide (needle.toList <:+: hay.toList)

/-- How the per-subscription loop classifies one candidate
(`reminder_service.py` lines 83-130). -/
inductive SubOutcome where
  | noEmail
  | skippedNoDate
  | notDue
  | sentOk
  | sendFailed
  | procError (msg : String)
deriving DecidableEq

/-- Result of processing one candidate: its classification, whether
`email_service.send_reminder_email` was invoked for it, and how many SMTP
transmissions that invocation attempted. -/
structure SubResult where
  outcome : SubOutcome
  dispatched : Bool
  transportCalls : Nat
deriving DecidableEq

/-- One iteration of the per-subscription loop
(`reminder_service.py` lines 83-130): missing or unresolved owner fails the
record; a falsy renewal date skips it; a malformed one raises `ValueError`
into the per-item handler (line 125); on an exact `days_until ==
reminder_days_before` match the email is dispatched and its boolean result
recorded. -/
def processSub (R : Resolution) (cfg : SmtpConfig)
    (tr : Subscription → TransportOutcome) (today : Int) (sub : Subscription) :
    SubResult :=
  match sub.userId with
  | none => ⟨.noEmail, false, 0⟩
  | some uid =>
    match List.lookup uid R.emails with
    | none => ⟨.noEmail, false, 0⟩
    | some email =>
      match parseRenewal sub.nextRenewalDate with
      | .missing => ⟨.skippedNoDate, false, 0⟩
      | .err => ⟨.procError "invalid renewal date", false, 0⟩
      | .ok d =>
        if d - today = sub.reminderDaysBefore.getD 7 then
          let nm := (List.lookup uid R.names).getD "User"
          let out := send_reminder_email cfg email nm sub (d - today) (tr sub)
          match out.result with
          | .ok true => ⟨.sentOk, true, out.transportCalls⟩
          | .ok false => ⟨.sendFailed, true, out.transportCalls⟩
          | .error m => ⟨.procError m, true, out.transportCalls⟩
        else ⟨.notDue, false, 0⟩

/-- The error strings one outcome appends to `stats["errors"]`
(`reminder_service.py` lines 88, 123, 128). -/
def outcomeErrors (sub : Subscription) : SubOutcome → List String
  | .noEmail => ["User email not found for subscription " ++ sub.id]
  | .skippedNoDate => []
  | .notDue => []
  | .sentOk => []
  | .sendFailed => ["Failed to send reminder for subscription " ++ sub.id]
  | .procError m => ["Error processing subscription " ++ sub.id ++ ": " ++ m]

/-- Counter updates of the per-subscription loop: each outcome bumps `sent`
(line 119), bumps `failed` (lines 87, 122, 126), or leaves both alone. -/
def applyOutcome (st : Stats) (sub : Subscription) : SubOutcome → Stats
  | .noEmail =>
      { st with failed := st.failed + 1,
                errors := st.errors ++ outcomeErrors sub .noEmail }
  | .skippedNoDate => st
  | .notDue => st
  | .sentOk => { st with sent := st.sent + 1 }
  | .sendFailed =>
      { st with failed := st.failed + 1,
                errors := st.errors ++ outcomeErrors sub .sendFailed }
  | .procError m =>
      { st with failed := st.failed + 1,
                errors := st.errors ++ outcomeErrors sub (.procError m) }

/-- Observable trace of one reminder run: the returned statistics, the
subscriptions for which a dispatch (a `send_reminder_email` call) was
attempted, in order, and the total number of SMTP transmissions attempted. -/
structure RunTrace where
  stats : Stats
  dispatched : List Subscription
  transportCalls : Nat
deriving DecidableEq

/-- Fold step of the per-subscription loop, threading the run trace. -/
def stepSub (R : Resolution) (cfg : SmtpConfig)
    (tr : Subscription → TransportOutcome) (today : Int) (acc : RunTrace)
    (sub : Subscription) : RunTrace :=
  let r := processSub R cfg tr today sub
  { stats := applyOutcome acc.stats sub r.outcome
    dispatched := acc.dispatched ++ (if r.dispatched then [sub] else [])
    transportCalls := acc.transportCalls + r.transportCalls }

/-- The per-subscription loop (`reminder_service.py` lines 83-130). -/
def runLoop (R : Resolution) (cfg : SmtpConfig)
    (tr : Subscription → TransportOutcome) (today : Int) (acc : RunTrace)
    (subs : List Subscription) : RunTrace :=
  subs.foldl (stepSub R cfg tr today) acc

/-- Models `ReminderService.check_and_send_reminders` (`reminder_service.py`
lines 10-139), with its external collaborators explicit: `queryResult` is the
outcome of the Supabase candidate query (lines 28-34), `resolver` the auth
identity lookup, `cfg` and `transport` the mail transport.  A query failure
is caught by the outer handler (lines 135-139), which appends
`"Error in reminder check: {msg}"` to the fresh stats dict and returns it.
An empty candidate list returns early (lines 39-41). -/
def check_run (today : Int) (queryResult : Except String (List Subscription))
    (resolver : String → Except String Resolved) (cfg : SmtpConfig)
    (transport : Subscription → TransportOutcome) : RunTrace :=
  match queryResult with
  | .error e => ⟨⟨0, 0, 0, ["Error in reminder check: " ++ e]⟩, [], 0⟩
  | .ok subs =>
    let base : Stats := ⟨subs.length, 0, 0, []⟩
    if subs.isEmpty then ⟨base, [], 0⟩
    else
      let R := resolveAll resolver (uniqueUserIds subs)
      runLoop R cfg transport today ⟨{ base with errors := R.errors }, [], 0⟩ subs

/-- The statistics dict returned by `check_and_send_reminders`. -/
def check_and_send_reminders (today : Int)
    (queryResult : Except String (List Subscription))
    (resolver : String → Except String Resolved) (cfg : SmtpConfig)
    (transport : Subscription → TransportOutcome) : Stats :=
  (check_run today queryResult resolver cfg transport).stats

/-- The filtering loop of `get_upcoming_reminders` (`reminder_service.py`
lines 157-175), written over the candidate list returned by the scoped query.
There is no exception handler here: a malformed date propagates the
`ValueError` out of the whole call. -/
def upcomingLoop (today : Int) :
    List Subscription → List Subscription → Except String (List Subscription)
  | [], acc => .ok acc
  | sub :: rest, acc =>
    match parseRenewal sub.nextRenewalDate with
    | .missing => upcomingLoop today rest acc
    | .err => .error ("Error parsing renewal date for subscription " ++ sub.id)
    | .ok d =>
      if d - today = sub.reminderDaysBefore.getD 7 then
        upcomingLoop today rest (acc ++ [sub])
      else
        upcomingLoop today rest acc

/-- Models `ReminderService.get_upcoming_reminders` (`reminder_service.py`
lines 141-175), applied to the candidate list produced by the scoped
Supabase query. -/
def get_upcoming_reminders (today : Int) (candidates : List Subscription) :
    Except String (List Subscription) :=
  upcomingLoop today candidates []

/-- The record store, for the purposes of `get_upcoming_reminders`: a queryable
collection of subscription rows. -/
structure Store where
  subscriptions : List Subscription
deriving DecidableEq

/-- The scoped Supabase query of `get_upcoming_reminders` (`reminder_service.py`
lines 146-153): owner, active and reminder-enabled equality filters plus the
`[today, today + days]` range filter on the renewal-date column.  For
well-formed ISO values the column's string order agrees with date order; rows
whose date is absent fail the range predicate. -/
def queryUpcoming (st : Store) (userId : String) (today hi : Int) :
    List Subscription :=
  st.subscriptions.filter (fun s =>
    s.userId == some userId && s.isActive && s.reminderEnabled &&
      (match s.nextRenewalDate with
       | .dateOnly (some d) => decide (today ≤ d) && decide (d ≤ hi)
       | .timestamp (some d) => decide (today ≤ d) && decide (d ≤ hi)
       | _ => false))

/-- Views `get_upcoming_reminders` as a state-passing operation on the store: the
method only issues a read query, so the store component of the result is the
store it was given. -/
def get_upcoming_remindersS (st : Store) (userId : String) (days today : Int) :
    Except String (List Subscription) × Store :=
  (get_upcoming_reminders today (queryUpcoming st userId today (today + days)), st)

/-- Observable state of `ReminderScheduler` (`reminder_scheduler.py`
lines 10-42): the registered job ids of the wrapped `AsyncIOScheduler`, its
own running flag, the service's `is_running` flag and the number of
"Scheduler is already running" warnings logged. -/
structure SchedState where
  jobs : List String
  schedulerStarted : Bool
  is_running : Bool
  warnings : Nat
deriving DecidableEq

/-- Models `ReminderScheduler.__init__` (`reminder_scheduler.py` lines 13-15). -/
def initialSched : SchedState := ⟨[], false, false, 0⟩

/-- Models `scheduler.add_job(..., id=jobId, replace_existing=True)`: registering an
id that is already present replaces the job rather than duplicating it. -/
def addJob (jobs : List String) (jobId : String) : List String :=
  if jobs.contains jobId then jobs else jobs ++ [jobId]

/-- Models `ReminderScheduler.start` (`reminder_scheduler.py` lines 17-35): when
already running it only logs a warning and returns; otherwise it registers the
single daily job and starts the wrapped scheduler. -/
def start (s : SchedState) : SchedState :=
  if s.is_running then { s with warnings := s.warnings + 1 }
  else
    { s with
      jobs := addJob s.jobs "daily_reminder_check"
      schedulerStarted := true
      is_running := true }

/-- Models `ReminderScheduler.stop` (`reminder_scheduler.py` lines 37-42): shuts the
wrapped scheduler down if it is running and clears `is_running`,
unconditionally. -/
def stop (s : SchedState) : SchedState :=
  { s with schedulerStarted := false, is_running := false }

/-- A lifecycle call on the scheduler singleton. -/
inductive SchedOp where
  | startOp
  | stopOp
deriving DecidableEq

/-- Apply one lifecycle call. -/
def schedStep (s : SchedState) : SchedOp → SchedState
  | .startOp => start s
  | .stopOp => stop s

/-- The scheduler state after a sequence of lifecycle calls on a fresh
`ReminderScheduler`. -/
def runOps (ops : List SchedOp) : SchedState :=
  ops.foldl schedStep initialSched

/-- Whether an outcome bumps the `sent` counter. -/
def isSentOutcome : SubOutcome → Bool
  | .sentOk => true
  | _ => false

/-- Whether an outcome bumps the `failed` counter. -/
def isFailOutcome : SubOutcome → Bool
  | .noEmail => true
  | .sendFailed => true
  | .procError _ => true
  | _ => false

/-- The membership test of the `get_upcoming_reminders` filter for a record
whose date does not raise: parse succeeds and the whole-day difference equals
the reminder lead days. -/
def eligibleB (today : Int) (s : Subscription) : Bool :=
  match parseRenewal s.nextRenewalDate with
  | .ok d => decide (d - today = s.reminderDaysBefore.getD 7)
  | _ => false

theorem applyOutcome_checked (st : Stats) (sub : Subscription) (o : SubOutcome) :
    (applyOutcome st sub o).checked = st.checked := by
  cases o <;> rfl

theorem applyOutcome_sent (st : Stats) (sub : Subscription) (o : SubOutcome) :
    (applyOutcome st sub o).sent = st.sent + (if isSentOutcome o then 1 else 0) := by
  cases o <;> simp [applyOutcome, isSentOutcome]

theorem applyOutcome_failed (st : Stats) (sub : Subscription) (o : SubOutcome) :
    (applyOutcome st sub o).failed = st.failed + (if isFailOutcome o then 1 else 0) := by
  cases o <;> simp [applyOutcome, isFailOutcome]

theorem applyOutcome_errors (st : Stats) (sub : Subscription) (o : SubOutcome) :
    (applyOutcome st sub o).errors = st.errors ++ outcomeErrors sub o := by
  cases o <;> simp [applyOutcome, outcomeErrors]

theorem runLoop_cons (R : Resolution) (cfg : SmtpConfig)
    (tr : Subscription → TransportOutcome) (today : Int) (acc : RunTrace)
    (sub : Subscription) (rest : List Subscription) :
    runLoop R cfg tr today acc (sub :: rest) =
      runLoop R cfg tr today (stepSub R cfg tr today acc sub) rest := rfl

theorem runLoop_checked (R : Resolution) (cfg : SmtpConfig)
    (tr : Subscription → TransportOutcome) (today : Int) :
    ∀ (subs : List Subscription) (acc : RunTrace),
      (runLoop R cfg tr today acc subs).stats.checked = acc.stats.checked := by
  intro subs
  induction subs with
  | nil => intro acc; rfl
  | cons sub rest ih =>
    intro acc
    rw [runLoop_cons, ih]
    simp [stepSub, applyOutcome_checked]

theorem runLoop_sent (R : Resolution) (cfg : SmtpConfig)
    (tr : Subscription → TransportOutcome) (today : Int) :
    ∀ (subs : List Subscription) (acc : RunTrace),
      (runLoop R cfg tr today acc subs).stats.sent =
        acc.stats.sent +
          subs.countP (fun s => isSentOutcome (processSub R cfg tr today s).outcome) := by
  intro subs
  induction subs with
  | nil => intro acc; simp [runLoop]
  | cons sub rest ih =>
    intro acc
    rw [runLoop_cons, ih]
    simp only [stepSub, applyOutcome_sent, List.countP_cons]
    by_cases h : isSentOutcome (processSub R cfg tr today sub).outcome = true <;>
      simp [h] <;> omega

theorem runLoop_failed (R : Resolution) (cfg : SmtpConfig)
    (tr : Subscription → TransportOutcome) (today : Int) :
    ∀ (subs : List Subscription) (acc : RunTrace),
      (runLoop R cfg tr today acc subs).stats.failed =
        acc.stats.failed +
          subs.countP (fun s => isFailOutcome (processSub R cfg tr today s).outcome) := by
  intro subs
  induction subs with
  | nil => intro acc; simp [runLoop]
  | cons sub rest ih =>
    intro acc
    rw [runLoop_cons, ih]
    simp only [stepSub, applyOutcome_failed, List.countP_cons]
    by_cases h : isFailOutcome (processSub R cfg tr today sub).outcome = true <;>
      simp [h] <;> omega

theorem runLoop_dispatched (R : Resolution) (cfg : SmtpConfig)
    (tr : Subscription → TransportOutcome) (today : Int) :
    ∀ (subs : List Subscription) (acc : RunTrace),
      (runLoop R cfg tr today acc subs).dispatched =
        acc.dispatched ++
          subs.filter (fun s => (processSub R cfg tr today s).dispatched) := by
  intro subs
  induction subs with
  | nil => intro acc; simp [runLoop]
  | cons sub rest ih =>
    intro acc
    rw [runLoop_cons, ih]
    simp only [stepSub, List.filter_cons]
    by_cases h : (processSub R cfg tr today sub).dispatched = true <;> simp [h]

theorem runLoop_transportCalls (R : Resolution) (cfg : SmtpConfig)
    (tr : Subscription → TransportOutcome) (today : Int) :
    ∀ (subs : List Subscription) (acc : RunTrace),
      (runLoop R cfg tr today acc subs).transportCalls =
        acc.transportCalls +
          (subs.map (fun s => (processSub R cfg tr today s).transportCalls)).sum := by
  intro subs
  induction subs with
  | nil => intro acc; simp [runLoop]
  | cons sub rest ih =>
    intro acc
    rw [runLoop_cons, ih]
    simp [stepSub]
    omega

theorem runLoop_errors_mono (R : Resolution) (cfg : SmtpConfig)
    (tr : Subscription → TransportOutcome) (today : Int) (msg : String) :
    ∀ (subs : List Subscription) (acc : RunTrace),
      msg ∈ acc.stats.errors →
      msg ∈ (runLoop R cfg tr today acc subs).stats.errors := by
  intro subs
  induction subs with
  | nil => intro acc h; exact h
  | cons sub rest ih =>
    intro acc h
    rw [runLoop_cons]
    apply ih
    simp [stepSub, applyOutcome_errors]
    exact Or.inl h

theorem runLoop_errors_of_mem (R : Resolution) (cfg : SmtpConfig)
    (tr : Subscription → TransportOutcome) (today : Int) (msg : String) :
    ∀ (subs : List Subscription) (acc : RunTrace) (s : Subscription),
      s ∈ subs → msg ∈ outcomeErrors s (processSub R cfg tr today s).outcome →
      msg ∈ (runLoop R cfg tr today acc subs).stats.errors := by
  intro subs
  induction subs with
  | nil => intro acc s h; simp at h
  | cons sub rest ih =>
    intro acc s hs hmsg
    rw [runLoop_cons]
    rcases List.mem_cons.mp hs with heq | htail
    · subst heq
      apply runLoop_errors_mono
      simp [stepSub, applyOutcome_errors]
      exact Or.inr hmsg
    · exact ih _ s htail hmsg

theorem lookup_append_of_none {α β : Type} [BEq α] (a : α) :
    ∀ (l₁ l₂ : List (α × β)), List.lookup a l₁ = none →
      List.lookup a (l₁ ++ l₂) = List.lookup a l₂ := by
  intro l₁
  induction l₁ with
  | nil => intro l₂ _; rfl
  | cons p rest ih =>
    intro l₂ h
    cases p with
    | mk b c =>
      simp only [List.cons_append, List.lookup] at h ⊢
      cases hab : (a == b) with
      | true => simp [hab] at h
      | false => simp only [hab] at h ⊢; exact ih l₂ h

theorem resolveAll_lookup_none (resolver : String → Except String Resolved)
    (uid : String) (e : String) (h : resolver uid = .error e) :
    ∀ (ids : List String) (acc : Resolution),
      List.lookup uid acc.emails = none →
      List.lookup uid ((ids.foldl (resolveStep resolver) acc)).emails = none := by
  intro ids
  induction ids with
  | nil => intro acc hacc; exact hacc
  | cons x rest ih =>
    intro acc hacc
    rw [List.foldl_cons]
    apply ih
    cases hx : resolver x with
    | ok r =>
      simp only [resolveStep, hx]
      rw [lookup_append_of_none]
      · simp only [List.lookup]
        have hne : (uid == x) = false := by
          cases hbe : (uid == x) with
          | true =>
            have : uid = x := by simpa using hbe
            rw [this, hx] at h
            exact absurd h (by simp)
          | false => rfl
        simp [hne]
      · exact hacc
    | error m => simpa [resolveStep, hx] using hacc

theorem resolveAll_errors_mono (resolver : String → Except String Resolved)
    (msg : String) :
    ∀ (ids : List String) (acc : Resolution),
      msg ∈ acc.errors → msg ∈ (ids.foldl (resolveStep resolver) acc).errors := by
  intro ids
  induction ids with
  | nil => intro acc h; exact h
  | cons x rest ih =>
    intro acc h
    rw [List.foldl_cons]
    apply ih
    cases hx : resolver x with
    | ok r => simpa [resolveStep, hx] using h
    | error m => simp [resolveStep, hx]; exact Or.inl h

theorem resolveAll_error_mem (resolver : String → Except String Resolved)
    (uid : String) (e : String) (h : resolver uid = .error e) :
    ∀ (ids : List String) (acc : Resolution),
      uid ∈ ids →
      ("Error fetching user " ++ uid ++ ": " ++ e) ∈
        (ids.foldl (resolveStep resolver) acc).errors := by
  intro ids
  induction ids with
  | nil => intro acc hmem; simp at hmem
  | cons x rest ih =>
    intro acc hmem
    rw [List.foldl_cons]
    rcases List.mem_cons.mp hmem with heq | htail
    · subst heq
      apply resolveAll_errors_mono
      simp [resolveStep, h]
    · exact ih _ htail

theorem mem_foldl_addUnique (uid : String) :
    ∀ (l : List String) (acc : List String),
      uid ∈ acc ∨ uid ∈ l → uid ∈ l.foldl addUnique acc := by
  intro l
  induction l with
  | nil => intro acc h; simpa using h
  | cons x rest ih =>
    intro acc h
    rw [List.foldl_cons]
    apply ih
    by_cases hc : acc.contains x = true
    · have hx : x ∈ acc := by simpa using hc
      simp only [addUnique, hc, if_true]
      rcases h with h | h
      · exact Or.inl h
      · rcases List.mem_cons.mp h with heq | htail
        · exact Or.inl (heq ▸ hx)
        · exact Or.inr htail
    · simp only [addUnique, hc, if_false]
      rcases h with h | h
      · exact Or.inl (List.mem_append_left _ h)
      · rcases List.mem_cons.mp h with heq | htail
        · exact Or.inl (List.mem_append_right _ (by simp [heq]))
        · exact Or.inr htail

theorem mem_uniqueUserIds (subs : List Subscription) (uid : String)
    (s : Subscription) (hs : s ∈ subs) (huid : s.userId = some uid) :
    uid ∈ uniqueUserIds subs := by
  apply mem_foldl_addUnique
  right
  exact List.mem_filterMap.mpr ⟨s, hs, huid⟩

theorem upcomingLoop_ok_sub (today : Int) :
    ∀ (subs acc l : List Subscription),
      upcomingLoop today subs acc = .ok l →
      ∀ s ∈ l, s ∈ acc ∨ (s ∈ subs ∧ eligibleB today s = true) := by
  intro subs
  induction subs with
  | nil =>
    intro acc l hok s hsl
    simp only [upcomingLoop, Except.ok.injEq] at hok
    exact Or.inl (hok ▸ hsl)
  | cons sub rest ih =>
    intro acc l hok s hsl
    cases hp : parseRenewal sub.nextRenewalDate with
    | missing =>
      simp only [upcomingLoop, hp] at hok
      rcases ih acc l hok s hsl with h | ⟨h1, h2⟩
      · exact Or.inl h
      · exact Or.inr ⟨List.mem_cons_of_mem _ h1, h2⟩
    | err => simp [upcomingLoop, hp] at hok
    | ok d =>
      simp only [upcomingLoop, hp] at hok
      by_cases hc : d - today = sub.reminderDaysBefore.getD 7
      · rw [if_pos hc] at hok
        rcases ih _ l hok s hsl with h | ⟨h1, h2⟩
        · rcases List.mem_append.mp h with h | h
          · exact Or.inl h
          · have heq : s = sub := by simpa using h
            refine Or.inr ⟨heq ▸ List.mem_cons_self sub rest, ?_⟩
            rw [heq]
            simp [eligibleB, hp, hc]
        · exact Or.inr ⟨List.mem_cons_of_mem _ h1, h2⟩
      · rw [if_neg hc] at hok
        rcases ih acc l hok s hsl with h | ⟨h1, h2⟩
        · exact Or.inl h
        · exact Or.inr ⟨List.mem_cons_of_mem _ h1, h2⟩

theorem upcomingLoop_mem_of_eligible (today : Int) :
    ∀ (subs acc l : List Subscription),
      upcomingLoop today subs acc = .ok l →
      ∀ s, s ∈ acc ∨ (s ∈ subs ∧ eligibleB today s = true) → s ∈ l := by
  intro subs
  induction subs with
  | nil =>
    intro acc l hok s hs
    simp only [upcomingLoop, Except.ok.injEq] at hok
    rcases hs with h | ⟨h, _⟩
    · exact hok ▸ h
    · simp at h
  | cons sub rest ih =>
    intro acc l hok s hs
    cases hp : parseRenewal sub.nextRenewalDate with
    | missing =>
      simp only [upcomingLoop, hp] at hok
      apply ih _ l hok s
      rcases hs with h | ⟨h1, h2⟩
      · exact Or.inl h
      · rcases List.mem_cons.mp h1 with heq | htail
        · exfalso
          rw [heq] at h2
          simp [eligibleB, hp] at h2
        · exact Or.inr ⟨htail, h2⟩
    | err => simp [upcomingLoop, hp] at hok
    | ok d =>
      simp only [upcomingLoop, hp] at hok
      by_cases hc : d - today = sub.reminderDaysBefore.getD 7
      · rw [if_pos hc] at hok
        apply ih _ l hok s
        rcases hs with h | ⟨h1, h2⟩
        · exact Or.inl (List.mem_append_left _ h)
        · rcases List.mem_cons.mp h1 with heq | htail
          · exact Or.inl (List.mem_append_right _ (by simp [heq]))
          · exact Or.inr ⟨htail, h2⟩
      · rw [if_neg hc] at hok
        apply ih _ l hok s
        rcases hs with h | ⟨h1, h2⟩
        · exact Or.inl h
        · rcases List.mem_cons.mp h1 with heq | htail
          · exfalso
            rw [heq] at h2
            simp [eligibleB, hp] at h2
            exact hc h2
          · exact Or.inr ⟨htail, h2⟩

theorem upcomingLoop_err_of_mem (today : Int) :
    ∀ (subs : List Subscription) (acc : List Subscription) (s : Subscription),
      s ∈ subs → parseRenewal s.nextRenewalDate = .err →
      ∃ m, upcomingLoop today subs acc = .error m := by
  intro subs
  induction subs with
  | nil => intro acc s h; simp at h
  | cons sub rest ih =>
    intro acc s hs herr
    cases hp : parseRenewal sub.nextRenewalDate with
    | missing =>
      rcases List.mem_cons.mp hs with heq | htail
      · rw [heq, hp] at herr; exact absurd herr (by simp)
      · simpa [upcomingLoop, hp] using ih acc s htail herr
    | err =>
      exact ⟨"Error parsing renewal date for subscription " ++ sub.id,
        by simp [upcomingLoop, hp]⟩
    | ok d =>
      rcases List.mem_cons.mp hs with heq | htail
      · rw [heq, hp] at herr; exact absurd herr (by simp)
      · by_cases hc : d - today = sub.reminderDaysBefore.getD 7
        · simpa [upcomingLoop, hp, hc] using ih (acc ++ [sub]) s htail herr
        · simpa [upcomingLoop, hp, hc] using ih acc s htail herr

theorem countP_add_le_length {α : Type} (p q : α → Bool) :
    ∀ l : List α, (∀ a ∈ l, ¬(p a = true ∧ q a = true)) →
      l.countP p + l.countP q ≤ l.length := by
  intro l
  induction l with
  | nil => intro _; simp
  | cons a rest ih =>
    intro h
    simp only [List.countP_cons, List.length_cons]
    have ha := h a (List.mem_cons_self a rest)
    have hr := ih (fun b hb => h b (List.mem_cons_of_mem a hb))
    by_cases hp : p a = true
    · have hq : q a = false := by
        cases hqq : q a with
        | true => exact absurd ⟨hp, hqq⟩ ha
        | false => rfl
      simp [hp, hq]
      omega
    · have hp' : p a = false := by simpa using hp
      by_cases hq : q a = true
      · simp [hp', hq]; omega
      · have hq' : q a = false := by simpa using hq
        simp [hp', hq']
        omega

theorem check_run_ok_ne_nil (today : Int)
    (resolver : String → Except String Resolved) (cfg : SmtpConfig)
    (transport : Subscription → TransportOutcome) (subs : List Subscription)
    (h : subs ≠ []) :
    check_run today (.ok subs) resolver cfg transport =
      runLoop (resolveAll resolver (uniqueUserIds subs)) cfg transport today
        ⟨⟨subs.length, 0, 0, (resolveAll resolver (uniqueUserIds subs)).errors⟩,
          [], 0⟩ subs := by
  cases subs with
  | nil => exact absurd rfl h
  | cons a rest => rfl

theorem countP_le_countP {α : Type} (p q : α → Bool) :
    ∀ l : List α, (∀ a ∈ l, p a = true → q a = true) →
      l.countP p ≤ l.countP q := by
  intro l
  induction l with
  | nil => intro _; simp
  | cons a rest ih =>
    intro h
    simp only [List.countP_cons]
    have hr := ih (fun b hb => h b (List.mem_cons_of_mem a hb))
    by_cases hp : p a = true
    · have hq := h a (List.mem_cons_self a rest) hp
      simp [hp, hq]
      omega
    · have hp' : p a = false := by simpa using hp
      simp [hp']
      omega

theorem send_missing_creds (cfg : SmtpConfig)
    (h : cfg.smtpUser = none ∨ cfg.smtpPassword = none)
    (toEmail userName : String) (sub : Subscription) (daysUntil : Int)
    (tr : TransportOutcome) :
    send_reminder_email cfg toEmail userName sub daysUntil tr = ⟨.ok false, 0⟩ := by
  have hb : (cfg.smtpUser.isNone || cfg.smtpPassword.isNone) = true := by
    rcases h with h | h <;> simp [h]
  simp [send_reminder_email, hb]

theorem sendBody_ok (tr : TransportOutcome) :
    sendBody tr = .ok true ∨ sendBody tr = .ok false := by
  cases tr with
  | ok => exact Or.inl rfl
  | failed m => exact Or.inr rfl

theorem processSub_dispatched_eq (R : Resolution) (cfg : SmtpConfig)
    (tr : Subscription → TransportOutcome) (today : Int) (sub : Subscription)
    (uid email : String) (d : Int)
    (huid : sub.userId = some uid)
    (hres : List.lookup uid R.emails = some email)
    (hparse : parseRenewal sub.nextRenewalDate = .ok d) :
    (processSub R cfg tr today sub).dispatched =
      decide (d - today = sub.reminderDaysBefore.getD 7) := by
  simp only [processSub, huid, hres, hparse]
  by_cases hc : d - today = sub.reminderDaysBefore.getD 7
  · rw [if_pos hc]
    cases hr : (send_reminder_email cfg email ((List.lookup uid R.names).getD "User")
        sub (d - today) (tr sub)).result with
    | error m => simp [hr, hc]
    | ok b => cases b <;> simp [hr, hc]
  · rw [if_neg hc]
    simp [hc]

theorem processSub_noEmail (R : Resolution) (cfg : SmtpConfig)
    (tr : Subscription → TransportOutcome) (today : Int) (sub : Subscription)
    (uid : String) (huid : sub.userId = some uid)
    (hres : List.lookup uid R.emails = none) :
    processSub R cfg tr today sub = ⟨.noEmail, false, 0⟩ := by
  simp [processSub, huid, hres]

theorem processSub_missing_creds (R : Resolution) (cfg : SmtpConfig)
    (tr : Subscription → TransportOutcome) (today : Int) (sub : Subscription)
    (hcred : cfg.smtpUser = none ∨ cfg.smtpPassword = none) :
    isSentOutcome (processSub R cfg tr today sub).outcome = false ∧
    (processSub R cfg tr today sub).transportCalls = 0 ∧
    ((processSub R cfg tr today sub).dispatched = true →
      isFailOutcome (processSub R cfg tr today sub).outcome = true) := by
  cases huid : sub.userId with
  | none => simp [processSub, huid, isSentOutcome, isFailOutcome]
  | some uid =>
    cases hres : List.lookup uid R.emails with
    | none => simp [processSub, huid, hres, isSentOutcome, isFailOutcome]
    | some email =>
      cases hp : parseRenewal sub.nextRenewalDate with
      | missing => simp [processSub, huid, hres, hp, isSentOutcome, isFailOutcome]
      | err => simp [processSub, huid, hres, hp, isSentOutcome, isFailOutcome]
      | ok d =>
        by_cases hc : d - today = sub.reminderDaysBefore.getD 7
        · have hsend := send_missing_creds cfg hcred email
            ((List.lookup uid R.names).getD "User") sub (d - today) (tr sub)
          simp only [processSub, huid, hres, hp, if_pos hc, hsend]
          simp [isSentOutcome, isFailOutcome]
        · simp [processSub, huid, hres, hp, hc, isSentOutcome, isFailOutcome]

theorem schedStep_jobs_inv (s : SchedState) (op : SchedOp)
    (h : s.jobs = [] ∨ s.jobs = ["daily_reminder_check"]) :
    (schedStep s op).jobs = [] ∨
      (schedStep s op).jobs = ["daily_reminder_check"] := by
  cases op with
  | stopOp => simpa [schedStep, stop] using h
  | startOp =>
    by_cases hr : s.is_running = true
    · simpa [schedStep, start, hr] using h
    · have hr' : s.is_running = false := by simpa using hr
      rcases h with h | h
      · right; simp [schedStep, start, hr', addJob, h]
      · right; simp [schedStep, start, hr', addJob, h]

theorem runOps_jobs (ops : List SchedOp) :
    (runOps ops).jobs = [] ∨ (runOps ops).jobs = ["daily_reminder_check"] := by
  suffices h : ∀ (l : List SchedOp) (s : SchedState),
      s.jobs = [] ∨ s.jobs = ["daily_reminder_check"] →
      (l.foldl schedStep s).jobs = [] ∨
        (l.foldl schedStep s).jobs = ["daily_reminder_check"] by
    exact h ops initialSched (Or.inl rfl)
  intro l
  induction l with
  | nil => intro s h; exact h
  | cons op rest ih =>
    intro s h
    rw [List.foldl_cons]
    exact ih _ (schedStep_jobs_inv s op h)

/-- The sample subscription of the spec scenario: renews at day ordinal 7,
reminder lead days absent (defaulting to 7), owned by `u1`. -/
def sampleSub : Subscription :=
  ⟨"s1", some "u1", "Netflix", .dateOnly (some 7), none, true, true⟩

/-- A candidate row whose renewal-date string is present but unparsable. -/
def badSub : Subscription :=
  ⟨"s2", some "u1", "Bad", .dateOnly none, some 7, true, true⟩

/-- A candidate row with an absent renewal date. -/
def absentSub : Subscription :=
  ⟨"s3", some "u1", "NoDate", .absent, none, true, true⟩

/-- An identity resolver that knows owner `u1` only. -/
def sampleResolver : String → Except String Resolved := fun uid =>
  if uid = "u1" then .ok ⟨"u1@example.com", "Test User"⟩ else .error "not found"

/-- An identity resolver that fails for every owner. -/
def failResolver : String → Except String Resolved := fun _ => .error "auth down"

/-- A fully configured SMTP transport. -/
def sampleCfg : SmtpConfig := ⟨some "mailer", some "secret", false⟩

/-- An SMTP configuration with no credentials set. -/
def noCredsCfg : SmtpConfig := ⟨none, none, false⟩

/-- A transport on which every transmission completes. -/
def sampleTransport : Subscription → TransportOutcome := fun _ => .ok

/-- C1: a candidate with `active=true, reminderEnabled=true` in the scan
window, whose owner's email resolved and whose renewal date parses to day
ordinal `d`, has a reminder dispatch attempted for it by
`check_and_send_reminders` if and only if `d - today` exactly equals its
`reminderDaysBefore` (defaulting to 7 when the field is absent); membership
in the sequence returned by `get_upcoming_reminders` is decided by the same
exact-day-match test. -/
theorem c1_dispatch_iff_exact_day_match (today : Int) (qr : List Subscription)
    (resolver : String → Except String Resolved) (cfg : SmtpConfig)
    (transport : Subscription → TransportOutcome)
    (sub : Subscription) (uid email : String) (d : Int)
    (hmem : sub ∈ qr)
    (huid : sub.userId = some uid)
    (hres : List.lookup uid (resolveAll resolver (uniqueUserIds qr)).emails =
      some email)
    (hparse : parseRenewal sub.nextRenewalDate = .ok d) :
    (sub ∈ (check_run today (.ok qr) resolver cfg transport).dispatched ↔
      d - today = sub.reminderDaysBefore.getD 7) ∧
    (∀ l, get_upcoming_reminders today qr = .ok l →
      (sub ∈ l ↔ d - today = sub.reminderDaysBefore.getD 7)) := by
  constructor
  · rw [check_run_ok_ne_nil today resolver cfg transport qr
      (List.ne_nil_of_mem hmem)]
    rw [runLoop_dispatched]
    simp only [List.nil_append]
    rw [List.mem_filter]
    rw [processSub_dispatched_eq (resolveAll resolver (uniqueUserIds qr)) cfg
      transport today sub uid email d huid hres hparse]
    constructor
    · intro ⟨_, h⟩
      exact of_decide_eq_true h
    · intro h
      exact ⟨hmem, decide_eq_true h⟩
  · intro l hok
    constructor
    · intro hl
      rcases upcomingLoop_ok_sub today qr [] l hok sub hl with h | ⟨_, h⟩
      · simp at h
      · rw [eligibleB, hparse] at h
        exact of_decide_eq_true h
    · intro h
      apply upcomingLoop_mem_of_eligible today qr [] l hok sub
      refine Or.inr ⟨hmem, ?_⟩
      rw [eligibleB, hparse]
      exact decide_eq_true h

/-- Witness for C1 at the spec's sample scenario: renewal at day ordinal 7,
today 0, lead days absent (default 7). -/
theorem c1_witness :
    (sampleSub ∈
        (check_run 0 (.ok [sampleSub]) sampleResolver sampleCfg
          sampleTransport).dispatched ↔
      (7 : Int) - 0 = sampleSub.reminderDaysBefore.getD 7) ∧
    (∀ l, get_upcoming_reminders 0 [sampleSub] = .ok l →
      (sampleSub ∈ l ↔ (7 : Int) - 0 = sampleSub.reminderDaysBefore.getD 7)) :=
  c1_dispatch_iff_exact_day_match 0 [sampleSub] sampleResolver sampleCfg
    sampleTransport sampleSub "u1" "u1@example.com" 7
    (by decide) (by decide) (by decide) (by decide)

/-- C2 counterexample: a failing candidate query does NOT propagate out of
`check_and_send_reminders`; the run returns normally with the error reported
inside the summary's `errors` list, refuting the claim that the query error
propagates as a fatal error to the caller. -/
theorem c2_counterexample :
    check_and_send_reminders 0 (.error "db down") sampleResolver sampleCfg
        sampleTransport =
      ⟨0, 0, 0, ["Error in reminder check: db down"]⟩ := rfl

/-- C2 (amended): when the initial candidate query fails, the outer exception
handler of `check_and_send_reminders` catches the error and returns the run
summary with `checked=sent=failed=0` and the error message appended to
`errors`; no exception reaches the caller. -/
theorem c2_amended_query_failure_reported (today : Int) (e : String)
    (resolver : String → Except String Resolved) (cfg : SmtpConfig)
    (transport : Subscription → TransportOutcome) :
    check_and_send_reminders today (.error e) resolver cfg transport =
      ⟨0, 0, 0, ["Error in reminder check: " ++ e]⟩ := rfl

/-- C3 counterexample: a candidate with a resolved owner but an unparsable
renewal date is counted as a failure by `check_and_send_reminders` (not
skipped), and makes `get_upcoming_reminders` fail as a whole rather than
skip the record. -/
theorem c3_counterexample :
    (check_and_send_reminders 0 (.ok [badSub]) sampleResolver sampleCfg
        sampleTransport).failed = 1 ∧
    get_upcoming_reminders 0 [badSub] =
      .error "Error parsing renewal date for subscription s2" := by
  constructor
  · decide
  · rfl

/-- C3 (amended): a candidate whose renewal-date field is absent is skipped
without counting as a failure (given its owner resolved) by
`check_and_send_reminders`, and never appears in the `get_upcoming_reminders`
result; but a date that is present and fails to parse is counted as a failure
with an error entry in `check_and_send_reminders`, and raises out of
`get_upcoming_reminders`, failing that whole call. -/
theorem c3_amended_parse_failure_handling (R : Resolution) (cfg : SmtpConfig)
    (tr : Subscription → TransportOutcome) (today : Int) (sub : Subscription)
    (uid email : String)
    (huid : sub.userId = some uid)
    (hres : List.lookup uid R.emails = some email) :
    (sub.nextRenewalDate = .absent →
      processSub R cfg tr today sub = ⟨.skippedNoDate, false, 0⟩) ∧
    (parseRenewal sub.nextRenewalDate = .err →
      processSub R cfg tr today sub =
        ⟨.procError "invalid renewal date", false, 0⟩) ∧
    (∀ (subs acc : List Subscription), sub ∈ subs →
      parseRenewal sub.nextRenewalDate = .err →
      ∃ m, upcomingLoop today subs acc = .error m) ∧
    (∀ (subs l : List Subscription), sub.nextRenewalDate = .absent →
      upcomingLoop today subs [] = .ok l → sub ∉ l) := by
  refine ⟨?_, ?_, ?_, ?_⟩
  · intro habs
    simp [processSub, huid, hres, habs, parseRenewal]
  · intro herr
    simp [processSub, huid, hres, herr]
  · intro subs acc hmem herr
    exact upcomingLoop_err_of_mem today subs acc sub hmem herr
  · intro subs l habs hok hl
    rcases upcomingLoop_ok_sub today subs [] l hok sub hl with h | ⟨_, h⟩
    · simp at h
    · rw [eligibleB, habs] at h
      simp [parseRenewal] at h

/-- Witness for C3 (amended) at concrete inputs: an absent-date record and an
unparsable-date record, each with a resolved owner. -/
theorem c3_amended_witness :
    (absentSub.nextRenewalDate = .absent →
      processSub ⟨[("u1", "u1@example.com")], [], []⟩ sampleCfg sampleTransport 0
          absentSub = ⟨.skippedNoDate, false, 0⟩) ∧
    (parseRenewal absentSub.nextRenewalDate = .err →
      processSub ⟨[("u1", "u1@example.com")], [], []⟩ sampleCfg sampleTransport 0
          absentSub = ⟨.procError "invalid renewal date", false, 0⟩) ∧
    (∀ (subs acc : List Subscription), absentSub ∈ subs →
      parseRenewal absentSub.nextRenewalDate = .err →
      ∃ m, upcomingLoop 0 subs acc = .error m) ∧
    (∀ (subs l : List Subscription), absentSub.nextRenewalDate = .absent →
      upcomingLoop 0 subs [] = .ok l → absentSub ∉ l) :=
  c3_amended_parse_failure_handling ⟨[("u1", "u1@example.com")], [], []⟩
    sampleCfg sampleTransport 0 absentSub "u1" "u1@example.com"
    (by decide) (by decide)

/-- C4: an identity-resolution failure for one owner does not abort the run:
the resolution error is recorded in the summary, every candidate subscription
of that owner is classified `noEmail` (incrementing `failed` once per such
subscription, with a per-subscription error entry), none of them is
dispatched, and the count of that owner's candidates is a lower bound on the
`failed` counter. -/
theorem c4_resolution_failure_isolated (today : Int) (subs : List Subscription)
    (resolver : String → Except String Resolved) (cfg : SmtpConfig)
    (transport : Subscription → TransportOutcome) (uid e : String)
    (hfail : resolver uid = .error e)
    (s0 : Subscription) (hs0 : s0 ∈ subs) (hs0uid : s0.userId = some uid) :
    ("Error fetching user " ++ uid ++ ": " ++ e) ∈
      (check_run today (.ok subs) resolver cfg transport).stats.errors ∧
    (∀ s ∈ subs, s.userId = some uid →
      (processSub (resolveAll resolver (uniqueUserIds subs)) cfg transport
          today s).outcome = .noEmail ∧
      ("User email not found for subscription " ++ s.id) ∈
        (check_run today (.ok subs) resolver cfg transport).stats.errors ∧
      s ∉ (check_run today (.ok subs) resolver cfg transport).dispatched) ∧
    subs.countP (fun s => s.userId == some uid) ≤
      (check_run today (.ok subs) resolver cfg transport).stats.failed := by
  have hne : subs ≠ [] := List.ne_nil_of_mem hs0
  have huid_mem : uid ∈ uniqueUserIds subs := mem_uniqueUserIds subs uid s0 hs0 hs0uid
  have hlookup : List.lookup uid
      (resolveAll resolver (uniqueUserIds subs)).emails = none :=
    resolveAll_lookup_none resolver uid e hfail (uniqueUserIds subs)
      ⟨[], [], []⟩ rfl
  have hproc : ∀ s ∈ subs, s.userId = some uid →
      processSub (resolveAll resolver (uniqueUserIds subs)) cfg transport
        today s = ⟨.noEmail, false, 0⟩ := by
    intro s _ hsuid
    exact processSub_noEmail _ cfg transport today s uid hsuid hlookup
  rw [check_run_ok_ne_nil today resolver cfg transport subs hne]
  refine ⟨?_, ?_, ?_⟩
  · apply runLoop_errors_mono
    exact resolveAll_error_mem resolver uid e hfail (uniqueUserIds subs)
      ⟨[], [], []⟩ huid_mem
  · intro s hs hsuid
    refine ⟨by rw [hproc s hs hsuid], ?_, ?_⟩
    · apply runLoop_errors_of_mem _ _ _ _ _ _ _ s hs
      rw [hproc s hs hsuid]
      simp [outcomeErrors]
    · rw [runLoop_dispatched]
      simp only [List.nil_append]
      intro hmem
      have := (List.mem_filter.mp hmem).2
      rw [hproc s hs hsuid] at this
      simp at this
  · rw [runLoop_failed]
    simp only [Nat.zero_add]
    apply countP_le_countP
    intro s hs hp
    have hsuid : s.userId = some uid := by simpa using hp
    rw [hproc s hs hsuid]
    rfl

/-- Witness for C4: a failing resolver, one candidate owned by the failing
owner. -/
theorem c4_witness :
    ("Error fetching user u1: auth down") ∈
      (check_run 0 (.ok [sampleSub]) failResolver sampleCfg
        sampleTransport).stats.errors ∧
    (∀ s ∈ [sampleSub], s.userId = some "u1" →
      (processSub (resolveAll failResolver (uniqueUserIds [sampleSub]))
          sampleCfg sampleTransport 0 s).outcome = .noEmail ∧
      ("User email not found for subscription " ++ s.id) ∈
        (check_run 0 (.ok [sampleSub]) failResolver sampleCfg
          sampleTransport).stats.errors ∧
      s ∉ (check_run 0 (.ok [sampleSub]) failResolver sampleCfg
        sampleTransport).dispatched) ∧
    [sampleSub].countP (fun s => s.userId == some "u1") ≤
      (check_run 0 (.ok [sampleSub]) failResolver sampleCfg
        sampleTransport).stats.failed := by
  have h := c4_resolution_failure_isolated 0 [sampleSub] failResolver sampleCfg
    sampleTransport "u1" "auth down" rfl sampleSub (by decide) (by decide)
  simpa using h

/-- C5: with SMTP credentials missing, `send_reminder_email` returns failure
with zero transport calls for every input; consequently every run ends with
`sent=0`, zero SMTP transmissions attempted, and at least as many `failed`
counts as dispatch attempts (every eligible candidate fails). -/
theorem c5_missing_credentials_degraded (cfg : SmtpConfig)
    (hcred : cfg.smtpUser = none ∨ cfg.smtpPassword = none) :
    (∀ (toEmail userName : String) (sub : Subscription) (daysUntil : Int)
        (tr : TransportOutcome),
      send_reminder_email cfg toEmail userName sub daysUntil tr =
        ⟨.ok false, 0⟩) ∧
    (∀ (today : Int) (queryResult : Except String (List Subscription))
        (resolver : String → Except String Resolved)
        (transport : Subscription → TransportOutcome),
      (check_run today queryResult resolver cfg transport).stats.sent = 0 ∧
      (check_run today queryResult resolver cfg transport).transportCalls = 0 ∧
      (check_run today queryResult resolver cfg transport).dispatched.length ≤
        (check_run today queryResult resolver cfg transport).stats.failed) := by
  constructor
  · intro toEmail userName sub daysUntil tr
    exact send_missing_creds cfg hcred toEmail userName sub daysUntil tr
  · intro today queryResult resolver transport
    cases queryResult with
    | error e => simp [check_run]
    | ok subs =>
      cases subs with
      | nil => simp [check_run]
      | cons a rest =>
        rw [check_run_ok_ne_nil today resolver cfg transport (a :: rest)
          (by simp)]
        refine ⟨?_, ?_, ?_⟩
        · rw [runLoop_sent]
          simp only [Nat.zero_add]
          rw [List.countP_eq_zero]
          intro s _
          have := (processSub_missing_creds
            (resolveAll resolver (uniqueUserIds (a :: rest))) cfg transport
            today s hcred).1
          simp [this]
        · rw [runLoop_transportCalls]
          simp only [Nat.zero_add]
          apply List.sum_eq_zero
          intro x hx
          rcases List.mem_map.mp hx with ⟨s, _, hsx⟩
          rw [← hsx]
          exact (processSub_missing_creds
            (resolveAll resolver (uniqueUserIds (a :: rest))) cfg transport
            today s hcred).2.1
        · rw [runLoop_dispatched, runLoop_failed]
          simp only [List.nil_append, Nat.zero_add]
          rw [← List.countP_eq_length_filter]
          apply countP_le_countP
          intro s _ hp
          exact (processSub_missing_creds
            (resolveAll resolver (uniqueUserIds (a :: rest))) cfg transport
            today s hcred).2.2 hp

/-- Witness for C5: the no-credentials configuration on the sample run. -/
theorem c5_witness :
    (∀ (toEmail userName : String) (sub : Subscription) (daysUntil : Int)
        (tr : TransportOutcome),
      send_reminder_email noCredsCfg toEmail userName sub daysUntil tr =
        ⟨.ok false, 0⟩) ∧
    (∀ (today : Int) (queryResult : Except String (List Subscription))
        (resolver : String → Except String Resolved)
        (transport : Subscription → TransportOutcome),
      (check_run today queryResult resolver noCredsCfg transport).stats.sent = 0 ∧
      (check_run today queryResult resolver noCredsCfg transport).transportCalls = 0 ∧
      (check_run today queryResult resolver noCredsCfg
          transport).dispatched.length ≤
        (check_run today queryResult resolver noCredsCfg
          transport).stats.failed) :=
  c5_missing_credentials_degraded noCredsCfg (Or.inl rfl)

/-- C6: `send_reminder_email` never raises to its caller: for every input and
every transport outcome it returns a boolean (`Except.ok`), and a transport
error is converted to the failure value `false`. -/
theorem c6_send_never_raises (cfg : SmtpConfig) (toEmail userName : String)
    (sub : Subscription) (daysUntil : Int) (tr : TransportOutcome) :
    (∃ b : Bool,
      (send_reminder_email cfg toEmail userName sub daysUntil tr).result =
        .ok b) ∧
    (∀ m, (send_reminder_email cfg toEmail userName sub daysUntil
        (.failed m)).result = .ok false) := by
  constructor
  · by_cases h : (cfg.smtpUser.isNone || cfg.smtpPassword.isNone) = true
    · exact ⟨false, by simp [send_reminder_email, h]⟩
    · rcases sendBody_ok tr with hb | hb
      · exact ⟨true, by simp [send_reminder_email, h, hb]⟩
      · exact ⟨false, by simp [send_reminder_email, h, hb]⟩
  · intro m
    by_cases h : (cfg.smtpUser.isNone || cfg.smtpPassword.isNone) = true
    · simp [send_reminder_email, h]
    · simp [send_reminder_email, h, sendBody, transportSend]

/-- C7 counterexample: at `daysUntil = 0` the subject line and the plain-text
body render `"0 days"` (the subject literally says "renews in 0 days"), and at
`daysUntil = 1` the HTML body renders the plural `"1 days"` — refuting the
claim that every produced content part uses "renews today" phrasing at 0 and
singular "day" at 1. -/
theorem c7_counterexample :
    subjectLine "Netflix" 0 = "🔔 Reminder: Netflix renews in 0 days" ∧
    strContains (subjectLine "Netflix" 0) "renews in 0 days" = true ∧
    strContains (subjectLine "Netflix" 0) "today" = false ∧
    plainDaysLine 0 = "Days Until Renewal: 0 days" ∧
    htmlDaysCell 1 = "1 days" := by
  refine ⟨?_, ?_, ?_, ?_, ?_⟩ <;> decide

/-- C7 (amended): only the HTML body uses the distinct "Renews today!"
phrasing at `daysUntil = 0`; the subject and plain-text body render
"0 days" there.  Singular "day" at `daysUntil = 1` holds in the subject and
plain body, while the HTML body always pluralizes; at `daysUntil ≥ 2` all
three parts use plural "days". -/
theorem c7_amended_day_phrasing :
    htmlDaysCell 0 = "Renews today!" ∧
    (∀ name, subjectLine name 0 =
      "🔔 Reminder: " ++ name ++ " renews in 0 days") ∧
    plainDaysLine 0 = "Days Until Renewal: 0 days" ∧
    (∀ name, subjectLine name 1 =
      "🔔 Reminder: " ++ name ++ " renews in 1 day") ∧
    plainDaysLine 1 = "Days Until Renewal: 1 day" ∧
    htmlDaysCell 1 = "1 days" ∧
    (∀ n : Int, 2 ≤ n →
      daysSuffix n = "s" ∧ htmlDaysCell n = toString n ++ " days") := by
  refine ⟨by decide, ?_, by decide, ?_, by decide, by decide, ?_⟩
  · intro name
    have hs : daysSuffix (0 : Int) = "s" := rfl
    simp only [subjectLine, hs, String.append_assoc]
    congr 1
  · intro name
    have hs : daysSuffix (1 : Int) = "" := rfl
    simp only [subjectLine, hs, String.append_assoc]
    congr 1
  · intro n hn
    have h1 : n ≠ 1 := by omega
    have h0 : n > 0 := by omega
    exact ⟨by simp [daysSuffix, h1], by simp [htmlDaysCell, h0]⟩

/-- Witness for C7 (amended) at `n = 3`. -/
theorem c7_amended_witness :
    (2 : Int) ≤ 3 ∧
    (daysSuffix 3 = "s" ∧ htmlDaysCell 3 = toString (3 : Int) ++ " days") :=
  ⟨by decide, c7_amended_day_phrasing.2.2.2.2.2.2 3 (by decide)⟩

/-- C8: `get_upcoming_reminders` is a pure read: it leaves the store
unchanged, and calling it a second time with identical inputs against the
resulting (unchanged) store returns the identical sequence. -/
theorem c8_get_upcoming_pure (st : Store) (userId : String)
    (days today : Int) :
    (get_upcoming_remindersS st userId days today).2 = st ∧
    (get_upcoming_remindersS ((get_upcoming_remindersS st userId days
        today).2) userId days today).1 =
      (get_upcoming_remindersS st userId days today).1 :=
  ⟨rfl, rfl⟩

/-- C9: the scheduler is a two-state machine over stopped/running: `start` in
the running state only logs a warning (no state change, no second job);
`start` in any reachable stopped state transitions to running with exactly one
registered daily job; `stop` is safe in either state and leaves the machine
stopped. -/
theorem c9_scheduler_state_machine :
    (∀ s : SchedState, s.is_running = true →
      start s = { s with warnings := s.warnings + 1 }) ∧
    (∀ ops : List SchedOp, (runOps ops).is_running = false →
      (start (runOps ops)).is_running = true ∧
      (start (runOps ops)).jobs = ["daily_reminder_check"]) ∧
    (∀ s : SchedState, (stop s).is_running = false) := by
  refine ⟨?_, ?_, ?_⟩
  · intro s h
    simp [start, h]
  · intro ops h
    constructor
    · simp [start, h]
    · rcases runOps_jobs ops with hj | hj <;> simp [start, h, addJob, hj]
  · intro s
    rfl

/-- Witness for C9: double-start warns and is a no-op; start from the fresh
state registers the single daily job; stop is safe on the fresh (stopped)
state. -/
theorem c9_witness :
    (start (start initialSched) =
      { start initialSched with warnings := (start initialSched).warnings + 1 }) ∧
    ((start (runOps [])).is_running = true ∧
      (start (runOps [])).jobs = ["daily_reminder_check"]) ∧
    (stop initialSched).is_running = false :=
  ⟨c9_scheduler_state_machine.1 (start initialSched) (by decide),
   c9_scheduler_state_machine.2.1 [] (by decide),
   c9_scheduler_state_machine.2.2 initialSched⟩

/-- C10: every run summary satisfies `sent + failed ≤ checked`: each checked
candidate bumps at most one of the two counters, and skipped or not-due
records bump neither. -/
theorem c10_sent_failed_le_checked (today : Int)
    (queryResult : Except String (List Subscription))
    (resolver : String → Except String Resolved) (cfg : SmtpConfig)
    (transport : Subscription → TransportOutcome) :
    (check_and_send_reminders today queryResult resolver cfg transport).sent +
      (check_and_send_reminders today queryResult resolver cfg
        transport).failed ≤
      (check_and_send_reminders today queryResult resolver cfg
        transport).checked := by
  cases queryResult with
  | error e => simp [check_and_send_reminders, check_run]
  | ok subs =>
    cases subs with
    | nil => simp [check_and_send_reminders, check_run]
    | cons a rest =>
      simp only [check_and_send_reminders]
      rw [check_run_ok_ne_nil today resolver cfg transport (a :: rest)
        (by simp)]
      rw [runLoop_sent, runLoop_failed, runLoop_checked]
      simp only [Nat.zero_add]
      have hd : ∀ s ∈ (a :: rest),
          ¬(isSentOutcome (processSub
              (resolveAll resolver (uniqueUserIds (a :: rest))) cfg transport
              today s).outcome = true ∧
            isFailOutcome (processSub
              (resolveAll resolver (uniqueUserIds (a :: rest))) cfg transport
              today s).outcome = true) := by
        intro s _ ⟨h1, h2⟩
        cases ho : (processSub (resolveAll resolver (uniqueUserIds (a :: rest)))
            cfg transport today s).outcome <;>
          rw [ho] at h1 h2 <;> simp [isSentOutcome, isFailOutcome] at h1 h2
      exact countP_add_le_length _ _ (a :: rest) hd

end Subscy
